import Mathlib

/-!
Shallow embedding of the pipeline library in `Pipeline_Hard.cpp`.

The C++ code builds a singly linked, exclusively owned chain of step
objects (seed / transform / terminal / sequential), each with an
`executed` flag, and recovers the typed input of a step from its
type-erased predecessor with two `dynamic_cast` attempts.  Runtime
types that matter for those casts are modelled by the tag type `Ty`,
values by the tagged union `Val`, and the three `std::runtime_error`
situations by `Err`.  Side effects of terminal/sequential steps are
modelled as a trace of strings; C++ in-place mutation is modelled by
returning the updated step graph, and a thrown exception by an
`Option Err` component that aborts the remainder of the invocation
while keeping the mutations already made.
-/

/-- Runtime type tags: stand-ins for the C++ template arguments that the
`dynamic_cast`s in the type-recovery protocol compare. -/
inductive Ty where
  | tint
  | tnat
  | tstr
deriving DecidableEq

/-- Tagged runtime values flowing through a chain. -/
inductive Val where
  | vint (n : Int)
  | vnat (n : Nat)
  | vstr (s : String)
deriving DecidableEq

/-- The runtime type tag of a value. -/
def Val.ty : Val → Ty
  | .vint _ => .tint
  | .vnat _ => .tnat
  | .vstr _ => .tstr

/-- The error conditions of the library: `resultNotSet` is the
`throw std::runtime_error("Result not set")` in `ResultHolder::getResult`,
`typeRecovery` is `throw std::runtime_error("Cannot get value from previous step")`
in the execute methods, and `userError` stands for an exception raised by a
user-supplied step function. -/
inductive Err where
  | resultNotSet
  | typeRecovery
  | userError
deriving DecidableEq

/-- The step-node hierarchy of `Pipeline_Hard.cpp`.

* `initial ty value executed` — `InitialStep<T>` with template argument `ty`,
  stored seed `value` and its `executed` flag;
* `transform previous inTy outTy func executed result` —
  `TransformStep<In, Out>` owning its predecessor, with
  `std::function<Out(In)> func`, the `executed` flag, and the inherited
  `ResultHolder<Out>` slot (`result = none` iff `has_result == false`;
  `setResult` always stores the value and sets the flag together);
* `terminal previous inTy func executed` — `TerminalStep<In>`; its function
  returns the list of side effects it emits, or throws;
* `sequential previous action executed` — the `SequentialStep` local to
  `Pipeline<void>::operator|`, whose zero-argument action emits effects. -/
inductive Step where
  | initial (ty : Ty) (value : Val) (executed : Bool)
  | transform (previous : Step) (inTy outTy : Ty) (func : Val → Except Unit Val)
      (executed : Bool) (result : Option Val)
  | terminal (previous : Step) (inTy : Ty) (func : Val → Except Unit (List String))
      (executed : Bool)
  | sequential (previous : Step) (action : Unit → Except Unit (List String))
      (executed : Bool)

/-- The `executed` flag of a step. -/
def Step.ran : Step → Bool
  | .initial _ _ ex => ex
  | .transform _ _ _ _ ex _ => ex
  | .terminal _ _ _ ex => ex
  | .sequential _ _ ex => ex

/-- The owned predecessor of a step (`none` for the seed). -/
def Step.prevOf : Step → Option Step
  | .initial _ _ _ => none
  | .transform p _ _ _ _ _ => some p
  | .terminal p _ _ _ => some p
  | .sequential p _ _ => some p

/-- The result slot of a step (`none` for steps without a `ResultHolder`
base or with `has_result == false`). -/
def Step.resOf : Step → Option Val
  | .transform _ _ _ _ _ res => res
  | _ => none

/-- `ResultHolder<T>::getResult` (Pipeline_Hard.cpp lines 46-51): throws
"Result not set" while `has_result` is false, otherwise returns the stored
value.  Only transform steps carry the slot; on the other step kinds the
slot is never populated, so the guard fails there as well. -/
def Step.getResult (s : Step) : Except Err Val :=
  match s.resOf with
  | none => .error .resultNotSet
  | some v => .ok v

/-- The type-recovery protocol of `TransformStep::execute` /
`TerminalStep::execute` (Pipeline_Hard.cpp lines 71-79 and 104-112): first
try `dynamic_cast<InitialStep<In>*>` (succeeds exactly when the predecessor
is a seed step whose template argument is `inTy`) and take its stored value;
then try `dynamic_cast<ResultHolder<In>*>` (succeeds exactly when the
predecessor is a transform step with output type `inTy`) and call
`getResult` on it; otherwise throw "Cannot get value from previous step". -/
def recoverInput (previous : Step) (inTy : Ty) : Except Err Val :=
  match previous with
  | .initial ty v _ =>
      if ty = inTy then .ok v else .error .typeRecovery
  | .transform _ _ outTy _ _ res =>
      if outTy = inTy then
        match res with
        | none => .error .resultNotSet
        | some v => .ok v
      else .error .typeRecovery
  | .terminal _ _ _ _ => .error .typeRecovery
  | .sequential _ _ _ => .error .typeRecovery

/-- `execute()` of each step class, returning the updated step graph, the
trace of side effects emitted during the call, and the exception (if any)
that aborted it.  Mirrors the C++ bodies exactly: each non-seed class does
all of its work — including the call to `previous->execute()` — inside
`if (!executed) { ... }`; the seed's `execute` just sets its flag.  State
changes and effects that happened before a throw are kept. -/
def Step.execute : Step → Step × List String × Option Err
  | .initial ty v _ => (.initial ty v true, [], none)
  | .transform prev inTy outTy f true res =>
      (.transform prev inTy outTy f true res, [], none)
  | .transform prev inTy outTy f false res =>
      match prev.execute with
      | (prev', tr, some e) => (.transform prev' inTy outTy f false res, tr, some e)
      | (prev', tr, none) =>
        match recoverInput prev' inTy with
        | .error e => (.transform prev' inTy outTy f false res, tr, some e)
        | .ok input =>
          match f input with
          | .error _ => (.transform prev' inTy outTy f false res, tr, some .userError)
          | .ok out => (.transform prev' inTy outTy f true (some out), tr, none)
  | .terminal prev inTy f true => (.terminal prev inTy f true, [], none)
  | .terminal prev inTy f false =>
      match prev.execute with
      | (prev', tr, some e) => (.terminal prev' inTy f false, tr, some e)
      | (prev', tr, none) =>
        match recoverInput prev' inTy with
        | .error e => (.terminal prev' inTy f false, tr, some e)
        | .ok input =>
          match f input with
          | .error _ => (.terminal prev' inTy f false, tr, some .userError)
          | .ok effs => (.terminal prev' inTy f true, tr ++ effs, none)
  | .sequential prev act true => (.sequential prev act true, [], none)
  | .sequential prev act false =>
      match prev.execute with
      | (prev', tr, some e) => (.sequential prev' act false, tr, some e)
      | (prev', tr, none) =>
        match act () with
        | .error _ => (.sequential prev' act false, tr, some .userError)
        | .ok effs => (.sequential prev' act true, tr ++ effs, none)

/-- `Pipeline<T>` (Pipeline_Hard.cpp lines 120-162): move-only owner of the
tip step, with the declared value type `T` (the template argument, here the
field `ty`) and the `immediate_execution` flag. -/
structure Pipeline where
  ty : Ty
  step : Step
  immediate : Bool

/-- `Pipeline<void>` (Pipeline_Hard.cpp lines 164-220): the terminal chain
state, with no declared value type. -/
structure VoidPipeline where
  step : Step
  immediate : Bool

/-- The `Pipeline<T>` constructor (lines 127-132): store the step and the
flag and, if `immediate` is set, execute synchronously before returning.
An exception thrown by that execution propagates to the caller; the triple
returns the handle state reached, the effects emitted, and that exception. -/
def Pipeline.create (ty : Ty) (s : Step) (imm : Bool) :
    Pipeline × List String × Option Err :=
  if imm then
    match s.execute with
    | (s', tr, e) => (⟨ty, s', imm⟩, tr, e)
  else (⟨ty, s, imm⟩, [], none)

/-- The `Pipeline<void>` constructor (lines 171-176), same shape. -/
def VoidPipeline.create (s : Step) (imm : Bool) :
    VoidPipeline × List String × Option Err :=
  if imm then
    match s.execute with
    | (s', tr, e) => (⟨s', imm⟩, tr, e)
  else (⟨s, imm⟩, [], none)

/-- `make_pipeline` (lines 222-226): wrap the value in a fresh, unexecuted
`InitialStep` and construct the handle with the given immediate flag. -/
def make_pipeline (v : Val) (imm : Bool) : Pipeline × List String × Option Err :=
  Pipeline.create v.ty (.initial v.ty v false) imm

/-- `Pipeline<T>::operator|` with a value-returning function (lines 147-161,
non-void branch): build a `TransformStep<T, Out>` around the moved tip, with
the input type taken from the current handle, and construct the new handle
with the current handle's immediate flag. -/
def Pipeline.pipeTransform (p : Pipeline) (outTy : Ty) (f : Val → Except Unit Val) :
    Pipeline × List String × Option Err :=
  Pipeline.create outTy (.transform p.step p.ty outTy f false none) p.immediate

/-- `Pipeline<T>::operator|` with a void-returning function (lines 147-161,
void branch): build a `TerminalStep<T>` and return a `Pipeline<void>`. -/
def Pipeline.pipeTerminal (p : Pipeline) (f : Val → Except Unit (List String)) :
    VoidPipeline × List String × Option Err :=
  VoidPipeline.create (.terminal p.step p.ty f false) p.immediate

/-- `Pipeline<void>::operator|` (lines 192-219): wrap the tip in a
`SequentialStep` holding the zero-argument action. -/
def VoidPipeline.pipeSequential (p : VoidPipeline)
    (act : Unit → Except Unit (List String)) :
    VoidPipeline × List String × Option Err :=
  VoidPipeline.create (.sequential p.step act false) p.immediate

/-- A chain handle in either state of the state machine: `Typed(T)` or
`Terminal`. -/
inductive Handle where
  | typed (p : Pipeline)
  | voidH (p : VoidPipeline)

/-- The step graph owned by a handle. -/
def Handle.step : Handle → Step
  | .typed p => p.step
  | .voidH p => p.step

/-- `execute()` on a handle (lines 139-141 and 183-185): delegate to the
owned tip. -/
def Handle.execute (h : Handle) : Step × List String × Option Err :=
  h.step.execute

/-- Composition requests that keep the chain in terminal state: a
`SequentialStep` per zero-argument action. -/
inductive VoidOps where
  | nil
  | seq (act : Unit → Except Unit (List String)) (rest : VoidOps)

/-- A sequence of composition requests against a typed handle, following the
state machine of the chain: a transform keeps the handle typed, a terminal
switches to the void state after which only sequential actions can follow.
Combinations the C++ type system rejects (a value-consuming function after a
terminal step) are unrepresentable. -/
inductive ChainOps where
  | nil
  | transform (outTy : Ty) (f : Val → Except Unit Val) (rest : ChainOps)
  | terminal (f : Val → Except Unit (List String)) (rest : VoidOps)

/-- Apply sequential composition requests to a void handle, accumulating
the effects emitted by immediate execution; an exception thrown during a
composition aborts the remaining requests (it propagates out of the
enclosing expression). -/
def buildVoid (p : VoidPipeline) : VoidOps → VoidPipeline × List String × Option Err
  | .nil => (p, [], none)
  | .seq act rest =>
      match p.pipeSequential act with
      | (p', tr, some e) => (p', tr, some e)
      | (p', tr, none) =>
        match buildVoid p' rest with
        | (p2, tr2, e2) => (p2, tr ++ tr2, e2)

/-- Apply composition requests to a typed handle, same conventions. -/
def buildChain (p : Pipeline) : ChainOps → Handle × List String × Option Err
  | .nil => (.typed p, [], none)
  | .transform u f rest =>
      match p.pipeTransform u f with
      | (p', tr, some e) => (.typed p', tr, some e)
      | (p', tr, none) =>
        match buildChain p' rest with
        | (h, tr2, e2) => (h, tr ++ tr2, e2)
  | .terminal f rest =>
      match p.pipeTerminal f with
      | (p', tr, some e) => (.voidH p', tr, some e)
      | (p', tr, none) =>
        match buildVoid p' rest with
        | (p2, tr2, e2) => (.voidH p2, tr ++ tr2, e2)

/-- A chain assembled exclusively through the public surface: seed a handle
with `make_pipeline` and extend it with the composition operation only. -/
def buildFrom (v : Val) (imm : Bool) (ops : ChainOps) :
    Handle × List String × Option Err :=
  match make_pipeline v imm with
  | (p, tr, some e) => (.typed p, tr, some e)
  | (p, tr, none) =>
    match buildChain p ops with
    | (h, tr2, e2) => (h, tr ++ tr2, e2)

/-! Unfolding lemmas for `Step.execute`, one per control path of the C++
method bodies. -/

lemma exec_initial (ty : Ty) (v : Val) (ex : Bool) :
    (Step.initial ty v ex).execute = (.initial ty v true, [], none) := rfl

lemma exec_transform_ran (prev : Step) (t u : Ty) (f : Val → Except Unit Val)
    (res : Option Val) :
    (Step.transform prev t u f true res).execute =
      (.transform prev t u f true res, [], none) := rfl

lemma exec_transform_prevErr {prev p' : Step} {tr : List String} {e : Err}
    (t u : Ty) (f : Val → Except Unit Val) (res : Option Val)
    (hp : prev.execute = (p', tr, some e)) :
    (Step.transform prev t u f false res).execute =
      (.transform p' t u f false res, tr, some e) := by
  simp [Step.execute, hp]

lemma exec_transform_recoverErr {prev p' : Step} {tr : List String} {e : Err}
    {t : Ty} (u : Ty) (f : Val → Except Unit Val) (res : Option Val)
    (hp : prev.execute = (p', tr, none)) (hr : recoverInput p' t = .error e) :
    (Step.transform prev t u f false res).execute =
      (.transform p' t u f false res, tr, some e) := by
  simp [Step.execute, hp, hr]

lemma exec_transform_funcErr {prev p' : Step} {tr : List String} {w : Val}
    {t : Ty} (u : Ty) {f : Val → Except Unit Val} (res : Option Val)
    (hp : prev.execute = (p', tr, none)) (hr : recoverInput p' t = .ok w)
    (hf : f w = .error ()) :
    (Step.transform prev t u f false res).execute =
      (.transform p' t u f false res, tr, some .userError) := by
  simp [Step.execute, hp, hr, hf]

lemma exec_transform_ok {prev p' : Step} {tr : List String} {w out : Val}
    {t : Ty} (u : Ty) {f : Val → Except Unit Val} (res : Option Val)
    (hp : prev.execute = (p', tr, none)) (hr : recoverInput p' t = .ok w)
    (hf : f w = .ok out) :
    (Step.transform prev t u f false res).execute =
      (.transform p' t u f true (some out), tr, none) := by
  simp [Step.execute, hp, hr, hf]

lemma exec_terminal_ran (prev : Step) (t : Ty)
    (f : Val → Except Unit (List String)) :
    (Step.terminal prev t f true).execute = (.terminal prev t f true, [], none) := rfl

lemma exec_terminal_prevErr {prev p' : Step} {tr : List String} {e : Err}
    (t : Ty) (f : Val → Except Unit (List String))
    (hp : prev.execute = (p', tr, some e)) :
    (Step.terminal prev t f false).execute = (.terminal p' t f false, tr, some e) := by
  simp [Step.execute, hp]

lemma exec_terminal_recoverErr {prev p' : Step} {tr : List String} {e : Err}
    {t : Ty} (f : Val → Except Unit (List String))
    (hp : prev.execute = (p', tr, none)) (hr : recoverInput p' t = .error e) :
    (Step.terminal prev t f false).execute = (.terminal p' t f false, tr, some e) := by
  simp [Step.execute, hp, hr]

lemma exec_terminal_funcErr {prev p' : Step} {tr : List String} {w : Val}
    {t : Ty} {f : Val → Except Unit (List String)}
    (hp : prev.execute = (p', tr, none)) (hr : recoverInput p' t = .ok w)
    (hf : f w = .error ()) :
    (Step.terminal prev t f false).execute =
      (.terminal p' t f false, tr, some .userError) := by
  simp [Step.execute, hp, hr, hf]

lemma exec_terminal_ok {prev p' : Step} {tr effs : List String} {w : Val}
    {t : Ty} {f : Val → Except Unit (List String)}
    (hp : prev.execute = (p', tr, none)) (hr : recoverInput p' t = .ok w)
    (hf : f w = .ok effs) :
    (Step.terminal prev t f false).execute =
      (.terminal p' t f true, tr ++ effs, none) := by
  simp [Step.execute, hp, hr, hf]

lemma exec_sequential_ran (prev : Step) (act : Unit → Except Unit (List String)) :
    (Step.sequential prev act true).execute = (.sequential prev act true, [], none) := rfl

lemma exec_sequential_prevErr {prev p' : Step} {tr : List String} {e : Err}
    (act : Unit → Except Unit (List String))
    (hp : prev.execute = (p', tr, some e)) :
    (Step.sequential prev act false).execute = (.sequential p' act false, tr, some e) := by
  simp [Step.execute, hp]

lemma exec_sequential_actErr {prev p' : Step} {tr : List String}
    {act : Unit → Except Unit (List String)}
    (hp : prev.execute = (p', tr, none)) (ha : act () = .error ()) :
    (Step.sequential prev act false).execute =
      (.sequential p' act false, tr, some .userError) := by
  simp [Step.execute, hp, ha]

lemma exec_sequential_ok {prev p' : Step} {tr effs : List String}
    {act : Unit → Except Unit (List String)}
    (hp : prev.execute = (p', tr, none)) (ha : act () = .ok effs) :
    (Step.sequential prev act false).execute =
      (.sequential p' act true, tr ++ effs, none) := by
  simp [Step.execute, hp, ha]

/-- A step whose ran flag is set is a complete no-op under `execute`: same
state back, no effects, no error. -/
lemma ran_noop {s : Step} (h : s.ran = true) : s.execute = (s, [], none) := by
  cases s with
  | initial ty v ex => cases ex <;> simp_all [Step.ran, Step.execute]
  | transform prev t u f ex res => cases ex <;> simp_all [Step.ran, Step.execute]
  | terminal prev t f ex => cases ex <;> simp_all [Step.ran, Step.execute]
  | sequential prev act ex => cases ex <;> simp_all [Step.ran, Step.execute]

/-- A successful `execute` leaves the tip with its ran flag set. -/
lemma exec_ran {s s' : Step} {tr : List String}
    (h : s.execute = (s', tr, none)) : s'.ran = true := by
  cases s with
  | initial ty v ex =>
    rw [exec_initial] at h
    obtain ⟨rfl, -, -⟩ := Prod.mk.injEq .. ▸ h
    rfl
  | transform prev t u f ex res =>
    cases ex with
    | true =>
      rw [exec_transform_ran] at h
      obtain ⟨rfl, -, -⟩ := Prod.mk.injEq .. ▸ h
      rfl
    | false =>
      rcases hp : prev.execute with ⟨p', tr', e'⟩
      cases e' with
      | some e => rw [exec_transform_prevErr t u f res hp] at h; simp at h
      | none =>
        rcases hr : recoverInput p' t with e | w
        · rw [exec_transform_recoverErr u f res hp hr] at h; simp at h
        · rcases hf : f w with u' | out
          · cases u'; rw [exec_transform_funcErr u res hp hr hf] at h; simp at h
          · rw [exec_transform_ok u res hp hr hf] at h
            obtain ⟨rfl, -, -⟩ := Prod.mk.injEq .. ▸ h
            rfl
  | terminal prev t f ex =>
    cases ex with
    | true =>
      rw [exec_terminal_ran] at h
      obtain ⟨rfl, -, -⟩ := Prod.mk.injEq .. ▸ h
      rfl
    | false =>
      rcases hp : prev.execute with ⟨p', tr', e'⟩
      cases e' with
      | some e => rw [exec_terminal_prevErr t f hp] at h; simp at h
      | none =>
        rcases hr : recoverInput p' t with e | w
        · rw [exec_terminal_recoverErr f hp hr] at h; simp at h
        · rcases hf : f w with u' | effs
          · cases u'; rw [exec_terminal_funcErr hp hr hf] at h; simp at h
          · rw [exec_terminal_ok hp hr hf] at h
            obtain ⟨rfl, -, -⟩ := Prod.mk.injEq .. ▸ h
            rfl
  | sequential prev act ex =>
    cases ex with
    | true =>
      rw [exec_sequential_ran] at h
      obtain ⟨rfl, -, -⟩ := Prod.mk.injEq .. ▸ h
      rfl
    | false =>
      rcases hp : prev.execute with ⟨p', tr', e'⟩
      cases e' with
      | some e => rw [exec_sequential_prevErr act hp] at h; simp at h
      | none =>
        rcases ha : act () with u' | effs
        · cases u'; rw [exec_sequential_actErr hp ha] at h; simp at h
        · rw [exec_sequential_ok hp ha] at h
          obtain ⟨rfl, -, -⟩ := Prod.mk.injEq .. ▸ h
          rfl

/-- After a successful `execute`, re-executing is a no-op: the state is
returned unchanged, nothing is emitted and no error is raised. -/
lemma exec_done {s s' : Step} {tr : List String}
    (h : s.execute = (s', tr, none)) : s'.execute = (s', [], none) :=
  ran_noop (exec_ran h)

/-- Well-formed typed chains: exactly the step graphs the composition
operation can produce under a typed handle of declared type `t`.  Every
transform step's input type is its predecessor's declared output type (the
seed's template argument or the previous transform's output type), and a
transform whose ran flag is set holds a result. -/
inductive Good : Step → Ty → Prop
  | initial (t : Ty) (v : Val) (ex : Bool) : Good (.initial t v ex) t
  | transform {s : Step} {t : Ty} (u : Ty) (f : Val → Except Unit Val)
      (ex : Bool) (res : Option Val) (hs : Good s t)
      (hres : ex = true → ∃ w, res = some w) :
      Good (.transform s t u f ex res) u

/-- Well-formed terminal-state chains: a terminal step whose input type is
its predecessor's declared output type, followed by sequential steps. -/
inductive GoodV : Step → Prop
  | terminal {s : Step} {t : Ty} (f : Val → Except Unit (List String))
      (ex : Bool) (hs : Good s t) : GoodV (.terminal s t f ex)
  | sequential {s : Step} (act : Unit → Except Unit (List String))
      (ex : Bool) (hs : GoodV s) : GoodV (.sequential s act ex)

/-- `execute` preserves well-formedness of typed chains. -/
lemma good_exec {s : Step} {t : Ty} (hg : Good s t) :
    ∀ {s' : Step} {tr : List String} {e : Option Err},
      s.execute = (s', tr, e) → Good s' t := by
  induction hg with
  | initial t v ex =>
    intro s' tr e h
    rw [exec_initial] at h
    obtain ⟨rfl, -, -⟩ := Prod.mk.injEq .. ▸ h
    exact .initial t v true
  | transform u f ex res hs hres ih =>
    intro s' tr e h
    cases ex with
    | true =>
      rw [exec_transform_ran] at h
      obtain ⟨rfl, -, -⟩ := Prod.mk.injEq .. ▸ h
      exact .transform u f true res hs hres
    | false =>
      rename_i prev t'
      rcases hp : prev.execute with ⟨p', tr', e'⟩
      have hp' : Good p' t' := ih hp
      cases e' with
      | some e0 =>
        rw [exec_transform_prevErr t' u f res hp] at h
        obtain ⟨rfl, -, -⟩ := Prod.mk.injEq .. ▸ h
        exact .transform u f false res hp' (by simp)
      | none =>
        rcases hr : recoverInput p' t' with e0 | w
        · rw [exec_transform_recoverErr u f res hp hr] at h
          obtain ⟨rfl, -, -⟩ := Prod.mk.injEq .. ▸ h
          exact .transform u f false res hp' (by simp)
        · rcases hf : f w with u' | out
          · cases u'
            rw [exec_transform_funcErr u res hp hr hf] at h
            obtain ⟨rfl, -, -⟩ := Prod.mk.injEq .. ▸ h
            exact .transform u f false res hp' (by simp)
          · rw [exec_transform_ok u res hp hr hf] at h
            obtain ⟨rfl, -, -⟩ := Prod.mk.injEq .. ▸ h
            exact .transform u f true (some out) hp' (fun _ => ⟨out, rfl⟩)

/-- `execute` preserves well-formedness of terminal-state chains. -/
lemma goodV_exec {s : Step} (hg : GoodV s) :
    ∀ {s' : Step} {tr : List String} {e : Option Err},
      s.execute = (s', tr, e) → GoodV s' := by
  induction hg with
  | terminal f ex hs =>
    intro s' tr e h
    cases ex with
    | true =>
      rw [exec_terminal_ran] at h
      obtain ⟨rfl, -, -⟩ := Prod.mk.injEq .. ▸ h
      exact .terminal f true hs
    | false =>
      rename_i prev t
      rcases hp : prev.execute with ⟨p', tr', e'⟩
      have hp' : Good p' t := good_exec hs hp
      cases e' with
      | some e0 =>
        rw [exec_terminal_prevErr t f hp] at h
        obtain ⟨rfl, -, -⟩ := Prod.mk.injEq .. ▸ h
        exact .terminal f false hp'
      | none =>
        rcases hr : recoverInput p' t with e0 | w
        · rw [exec_terminal_recoverErr f hp hr] at h
          obtain ⟨rfl, -, -⟩ := Prod.mk.injEq .. ▸ h
          exact .terminal f false hp'
        · rcases hf : f w with u' | effs
          · cases u'
            rw [exec_terminal_funcErr hp hr hf] at h
            obtain ⟨rfl, -, -⟩ := Prod.mk.injEq .. ▸ h
            exact .terminal f false hp'
          · rw [exec_terminal_ok hp hr hf] at h
            obtain ⟨rfl, -, -⟩ := Prod.mk.injEq .. ▸ h
            exact .terminal f true hp'
  | sequential act ex hs ih =>
    intro s' tr e h
    cases ex with
    | true =>
      rw [exec_sequential_ran] at h
      obtain ⟨rfl, -, -⟩ := Prod.mk.injEq .. ▸ h
      exact .sequential act true hs
    | false =>
      rename_i prev
      rcases hp : prev.execute with ⟨p', tr', e'⟩
      have hp' : GoodV p' := ih hp
      cases e' with
      | some e0 =>
        rw [exec_sequential_prevErr act hp] at h
        obtain ⟨rfl, -, -⟩ := Prod.mk.injEq .. ▸ h
        exact .sequential act false hp'
      | none =>
        rcases ha : act () with u' | effs
        · cases u'
          rw [exec_sequential_actErr hp ha] at h
          obtain ⟨rfl, -, -⟩ := Prod.mk.injEq .. ▸ h
          exact .sequential act false hp'
        · rw [exec_sequential_ok hp ha] at h
          obtain ⟨rfl, -, -⟩ := Prod.mk.injEq .. ▸ h
          exact .sequential act true hp'

/-- On a well-formed, already-executed chain of declared type `t`, the
type-recovery protocol succeeds: one of the first two cases applies. -/
lemma good_ran_recover {s : Step} {t : Ty} (hg : Good s t) (hr : s.ran = true) :
    ∃ w, recoverInput s t = .ok w := by
  cases hg with
  | initial t v ex => exact ⟨v, by simp [recoverInput]⟩
  | transform u f ex res hs hres =>
    obtain ⟨w, rfl⟩ := hres hr
    exact ⟨w, by simp [recoverInput]⟩

/-- Executing a well-formed typed chain never raises the type-recovery
error: the third branch of the protocol is unreachable. -/
lemma good_exec_no_tr {s : Step} {t : Ty} (hg : Good s t) :
    ∀ {s' : Step} {tr : List String} {e : Option Err},
      s.execute = (s', tr, e) → e ≠ some .typeRecovery := by
  induction hg with
  | initial t v ex =>
    intro s' tr e h
    rw [exec_initial] at h
    obtain ⟨-, -, rfl⟩ := Prod.mk.injEq .. ▸ h
    simp
  | transform u f ex res hs hres ih =>
    intro s' tr e h
    cases ex with
    | true =>
      rw [exec_transform_ran] at h
      obtain ⟨-, -, rfl⟩ := Prod.mk.injEq .. ▸ h
      simp
    | false =>
      rename_i prev t'
      rcases hp : prev.execute with ⟨p', tr', e'⟩
      cases e' with
      | some e0 =>
        rw [exec_transform_prevErr t' u f res hp] at h
        obtain ⟨-, -, rfl⟩ := Prod.mk.injEq .. ▸ h
        exact ih hp
      | none =>
        obtain ⟨w, hr⟩ := good_ran_recover (good_exec hs hp) (exec_ran hp)
        rcases hf : f w with u' | out
        · cases u'
          rw [exec_transform_funcErr u res hp hr hf] at h
          obtain ⟨-, -, rfl⟩ := Prod.mk.injEq .. ▸ h
          simp
        · rw [exec_transform_ok u res hp hr hf] at h
          obtain ⟨-, -, rfl⟩ := Prod.mk.injEq .. ▸ h
          simp

/-- Executing a well-formed terminal-state chain never raises the
type-recovery error either. -/
lemma goodV_exec_no_tr {s : Step} (hg : GoodV s) :
    ∀ {s' : Step} {tr : List String} {e : Option Err},
      s.execute = (s', tr, e) → e ≠ some .typeRecovery := by
  induction hg with
  | terminal f ex hs =>
    intro s' tr e h
    cases ex with
    | true =>
      rw [exec_terminal_ran] at h
      obtain ⟨-, -, rfl⟩ := Prod.mk.injEq .. ▸ h
      simp
    | false =>
      rename_i prev t
      rcases hp : prev.execute with ⟨p', tr', e'⟩
      cases e' with
      | some e0 =>
        rw [exec_terminal_prevErr t f hp] at h
        obtain ⟨-, -, rfl⟩ := Prod.mk.injEq .. ▸ h
        exact good_exec_no_tr hs hp
      | none =>
        obtain ⟨w, hr⟩ := good_ran_recover (good_exec hs hp) (exec_ran hp)
        rcases hf : f w with u' | effs
        · cases u'
          rw [exec_terminal_funcErr hp hr hf] at h
          obtain ⟨-, -, rfl⟩ := Prod.mk.injEq .. ▸ h
          simp
        · rw [exec_terminal_ok hp hr hf] at h
          obtain ⟨-, -, rfl⟩ := Prod.mk.injEq .. ▸ h
          simp
  | sequential act ex hs ih =>
    intro s' tr e h
    cases ex with
    | true =>
      rw [exec_sequential_ran] at h
      obtain ⟨-, -, rfl⟩ := Prod.mk.injEq .. ▸ h
      simp
    | false =>
      rename_i prev
      rcases hp : prev.execute with ⟨p', tr', e'⟩
      cases e' with
      | some e0 =>
        rw [exec_sequential_prevErr act hp] at h
        obtain ⟨-, -, rfl⟩ := Prod.mk.injEq .. ▸ h
        exact ih hp
      | none =>
        rcases ha : act () with u' | effs
        · cases u'
          rw [exec_sequential_actErr hp ha] at h
          obtain ⟨-, -, rfl⟩ := Prod.mk.injEq .. ▸ h
          simp
        · rw [exec_sequential_ok hp ha] at h
          obtain ⟨-, -, rfl⟩ := Prod.mk.injEq .. ▸ h
          simp

/-- Well-formedness of a handle: the owned chain matches the handle's
declared state. -/
def HandleGood : Handle → Prop
  | .typed p => Good p.step p.ty
  | .voidH p => GoodV p.step

/-- The typed-handle constructor keeps well-formedness, records the declared
type and the immediate flag, and cannot raise the type-recovery error. -/
lemma create_good {t : Ty} {s : Step} {imm : Bool} (hg : Good s t) :
    ∀ {p : Pipeline} {tr : List String} {e : Option Err},
      Pipeline.create t s imm = (p, tr, e) →
      Good p.step t ∧ p.ty = t ∧ p.immediate = imm ∧ e ≠ some .typeRecovery := by
  intro p tr e h
  cases imm with
  | false =>
    simp only [Pipeline.create, Bool.false_eq_true, if_false] at h
    obtain ⟨rfl, -, rfl⟩ := Prod.mk.injEq .. ▸ h
    exact ⟨hg, rfl, rfl, by simp⟩
  | true =>
    rcases hx : s.execute with ⟨s', tr', e'⟩
    simp only [Pipeline.create, if_true, hx] at h
    obtain ⟨rfl, -, rfl⟩ := Prod.mk.injEq .. ▸ h
    exact ⟨good_exec hg hx, rfl, rfl, good_exec_no_tr hg hx⟩

/-- Same for the void-handle constructor. -/
lemma createV_good {s : Step} {imm : Bool} (hg : GoodV s) :
    ∀ {p : VoidPipeline} {tr : List String} {e : Option Err},
      VoidPipeline.create s imm = (p, tr, e) →
      GoodV p.step ∧ p.immediate = imm ∧ e ≠ some .typeRecovery := by
  intro p tr e h
  cases imm with
  | false =>
    simp only [VoidPipeline.create, Bool.false_eq_true, if_false] at h
    obtain ⟨rfl, -, rfl⟩ := Prod.mk.injEq .. ▸ h
    exact ⟨hg, rfl, by simp⟩
  | true =>
    rcases hx : s.execute with ⟨s', tr', e'⟩
    simp only [VoidPipeline.create, if_true, hx] at h
    obtain ⟨rfl, -, rfl⟩ := Prod.mk.injEq .. ▸ h
    exact ⟨goodV_exec hg hx, rfl, goodV_exec_no_tr hg hx⟩

/-- Sequential composition requests keep the chain well-formed and never
produce the type-recovery error. -/
lemma buildVoid_good : ∀ (ops : VoidOps) (p : VoidPipeline), GoodV p.step →
    GoodV (buildVoid p ops).1.step ∧ (buildVoid p ops).2.2 ≠ some .typeRecovery := by
  intro ops
  induction ops with
  | nil => intro p hg; simpa [buildVoid] using hg
  | seq act rest ih =>
    intro p hg
    rcases hps : p.pipeSequential act with ⟨p', tr, e⟩
    obtain ⟨hg', -, he⟩ := createV_good (.sequential act false hg) hps
    cases e with
    | some e0 => simp only [buildVoid, hps]; exact ⟨hg', he⟩
    | none =>
      rcases hb : buildVoid p' rest with ⟨p2, tr2, e2⟩
      have := ih p' hg'
      rw [hb] at this
      simp only [buildVoid, hps, hb]
      exact this

/-- Composition requests against a typed handle keep the chain well-formed
and never produce the type-recovery error. -/
lemma buildChain_good : ∀ (ops : ChainOps) (p : Pipeline), Good p.step p.ty →
    HandleGood (buildChain p ops).1 ∧ (buildChain p ops).2.2 ≠ some .typeRecovery := by
  intro ops
  induction ops with
  | nil => intro p hg; simpa [buildChain, HandleGood] using hg
  | transform u f rest ih =>
    intro p hg
    rcases hps : p.pipeTransform u f with ⟨p', tr, e⟩
    obtain ⟨hg', hty, -, he⟩ :=
      create_good (.transform u f false none hg (by simp)) hps
    have hgp' : Good p'.step p'.ty := hty ▸ hg'
    cases e with
    | some e0 => simp only [buildChain, hps]; exact ⟨hgp', he⟩
    | none =>
      rcases hb : buildChain p' rest with ⟨h2, tr2, e2⟩
      have := ih p' hgp'
      rw [hb] at this
      simp only [buildChain, hps, hb]
      exact this
  | terminal f rest =>
    intro p hg
    rcases hps : p.pipeTerminal f with ⟨p', tr, e⟩
    obtain ⟨hg', -, he⟩ := createV_good (.terminal f false hg) hps
    cases e with
    | some e0 => simp only [buildChain, hps]; exact ⟨hg', he⟩
    | none =>
      rcases hb : buildVoid p' rest with ⟨p2, tr2, e2⟩
      have := buildVoid_good rest p' hg'
      rw [hb] at this
      simp only [buildChain, hps, hb]
      exact this

/-- Every chain assembled through the public surface is well-formed, and its
assembly (including any immediate executions) never produces the
type-recovery error. -/
lemma buildFrom_good (v : Val) (imm : Bool) (ops : ChainOps) :
    HandleGood (buildFrom v imm ops).1 ∧
      (buildFrom v imm ops).2.2 ≠ some .typeRecovery := by
  rcases hm : make_pipeline v imm with ⟨p, tr, e⟩
  obtain ⟨hg, hty, -, he⟩ := create_good (.initial v.ty v false) hm
  have hgp : Good p.step p.ty := hty ▸ hg
  cases e with
  | some e0 => simp only [buildFrom, hm, HandleGood]; exact ⟨hgp, he⟩
  | none =>
    rcases hb : buildChain p ops with ⟨h2, tr2, e2⟩
    have := buildChain_good ops p hgp
    rw [hb] at this
    simp only [buildFrom, hm, hb]
    exact this

/-- A transform function that never throws. -/
def TotalF (f : Val → Except Unit Val) : Prop := ∀ v, ∃ w, f v = .ok w

/-- A terminal function that never throws. -/
def TotalE (f : Val → Except Unit (List String)) : Prop := ∀ v, ∃ l, f v = .ok l

/-- A sequential action that never throws. -/
def TotalA (act : Unit → Except Unit (List String)) : Prop := ∃ l, act () = .ok l

/-- All actions of a sequential composition request list are throw-free. -/
inductive TotalOpsV : VoidOps → Prop
  | nil : TotalOpsV .nil
  | seq {act : Unit → Except Unit (List String)} {rest : VoidOps} :
      TotalA act → TotalOpsV rest → TotalOpsV (.seq act rest)

/-- All functions of a composition request list are throw-free. -/
inductive TotalOps : ChainOps → Prop
  | nil : TotalOps .nil
  | transform {u : Ty} {f : Val → Except Unit Val} {rest : ChainOps} :
      TotalF f → TotalOps rest → TotalOps (.transform u f rest)
  | terminal {f : Val → Except Unit (List String)} {rest : VoidOps} :
      TotalE f → TotalOpsV rest → TotalOps (.terminal f rest)

/-- Immediate/deferred simulation, terminal-state half.  If the deferred
handle's chain executes to exactly the immediate handle's chain (emitting
`trP`), then after any throw-free sequential requests the deferred build
emits nothing, both builds succeed, and one execution of the deferred
result reaches exactly the immediate result's chain while emitting `trP`
followed by whatever the immediate build emitted. -/
lemma buildVoid_sim : ∀ (ops : VoidOps), TotalOpsV ops →
    ∀ (s0 s1 : Step) (trP : List String),
    s0.execute = (s1, trP, none) →
    ∃ q0 q1 tr1,
      buildVoid ⟨s0, false⟩ ops = (q0, [], none) ∧
      buildVoid ⟨s1, true⟩ ops = (q1, tr1, none) ∧
      q0.immediate = false ∧ q1.immediate = true ∧
      q0.step.execute = (q1.step, trP ++ tr1, none) := by
  intro ops hops
  induction hops with
  | nil =>
    intro s0 s1 trP hsim
    exact ⟨⟨s0, false⟩, ⟨s1, true⟩, [], rfl, rfl, rfl, rfl, by simpa using hsim⟩
  | seq hact hrest ih =>
    intro s0 s1 trP hsim
    rename_i act rest
    obtain ⟨effs, ha⟩ := hact
    have hdone : s1.execute = (s1, [], none) := exec_done hsim
    have hexec1 : (Step.sequential s1 act false).execute =
        (.sequential s1 act true, [] ++ effs, none) := exec_sequential_ok hdone ha
    have hexec0 : (Step.sequential s0 act false).execute =
        (.sequential s1 act true, trP ++ effs, none) := exec_sequential_ok hsim ha
    obtain ⟨q0, q1, tr1, hb0, hb1, hq0, hq1, hqexec⟩ :=
      ih (Step.sequential s0 act false) (.sequential s1 act true) (trP ++ effs) hexec0
    refine ⟨q0, q1, effs ++ tr1, ?_, ?_, hq0, hq1, ?_⟩
    · have hps : VoidPipeline.pipeSequential ⟨s0, false⟩ act =
          (⟨Step.sequential s0 act false, false⟩, [], none) := by
        simp [VoidPipeline.pipeSequential, VoidPipeline.create]
      simp only [buildVoid, hps, hb0, List.nil_append]
    · have hps : VoidPipeline.pipeSequential ⟨s1, true⟩ act =
          (⟨Step.sequential s1 act true, true⟩, effs, none) := by
        simp [VoidPipeline.pipeSequential, VoidPipeline.create, hexec1]
      simp only [buildVoid, hps, hb1]
    · rw [hqexec, List.append_assoc]

/-- Immediate/deferred simulation, typed half. -/
lemma buildChain_sim : ∀ (ops : ChainOps), TotalOps ops →
    ∀ (t : Ty) (s0 s1 : Step) (trP : List String),
    Good s1 t →
    s0.execute = (s1, trP, none) →
    ∃ h0 h1 tr1,
      buildChain ⟨t, s0, false⟩ ops = (h0, [], none) ∧
      buildChain ⟨t, s1, true⟩ ops = (h1, tr1, none) ∧
      h0.step.execute = (h1.step, trP ++ tr1, none) := by
  intro ops hops
  induction hops with
  | nil =>
    intro t s0 s1 trP hgood hsim
    exact ⟨.typed ⟨t, s0, false⟩, .typed ⟨t, s1, true⟩, [], rfl, rfl, by
      simpa [Handle.step] using hsim⟩
  | transform htot hrest ih =>
    intro t s0 s1 trP hgood hsim
    rename_i u f rest
    have hdone : s1.execute = (s1, [], none) := exec_done hsim
    obtain ⟨w, hr⟩ := good_ran_recover hgood (exec_ran hsim)
    obtain ⟨out, hf⟩ := htot w
    have hexec1 : (Step.transform s1 t u f false none).execute =
        (.transform s1 t u f true (some out), [], none) :=
      exec_transform_ok u none hdone hr hf
    have hexec0 : (Step.transform s0 t u f false none).execute =
        (.transform s1 t u f true (some out), trP, none) :=
      exec_transform_ok u none hsim hr hf
    have hgood' : Good (Step.transform s1 t u f true (some out)) u :=
      .transform u f true (some out) hgood (fun _ => ⟨out, rfl⟩)
    obtain ⟨h0, h1, tr1, hb0, hb1, hqexec⟩ :=
      ih u (Step.transform s0 t u f false none)
        (.transform s1 t u f true (some out)) trP hgood' hexec0
    refine ⟨h0, h1, tr1, ?_, ?_, hqexec⟩
    · have hps : Pipeline.pipeTransform ⟨t, s0, false⟩ u f =
          (⟨u, Step.transform s0 t u f false none, false⟩, [], none) := by
        simp [Pipeline.pipeTransform, Pipeline.create]
      simp only [buildChain, hps, hb0, List.nil_append]
    · have hps : Pipeline.pipeTransform ⟨t, s1, true⟩ u f =
          (⟨u, Step.transform s1 t u f true (some out), true⟩, [], none) := by
        simp [Pipeline.pipeTransform, Pipeline.create, hexec1]
      simp only [buildChain, hps, hb1, List.nil_append]
  | terminal htot hrest =>
    intro t s0 s1 trP hgood hsim
    rename_i f rest
    have hdone : s1.execute = (s1, [], none) := exec_done hsim
    obtain ⟨w, hr⟩ := good_ran_recover hgood (exec_ran hsim)
    obtain ⟨effs, hf⟩ := htot w
    have hexec1 : (Step.terminal s1 t f false).execute =
        (.terminal s1 t f true, [] ++ effs, none) := exec_terminal_ok hdone hr hf
    have hexec0 : (Step.terminal s0 t f false).execute =
        (.terminal s1 t f true, trP ++ effs, none) := exec_terminal_ok hsim hr hf
    obtain ⟨q0, q1, tr1, hb0, hb1, -, -, hqexec⟩ :=
      buildVoid_sim rest hrest (Step.terminal s0 t f false)
        (.terminal s1 t f true) (trP ++ effs) hexec0
    refine ⟨.voidH q0, .voidH q1, effs ++ tr1, ?_, ?_, ?_⟩
    · have hps : Pipeline.pipeTerminal ⟨t, s0, false⟩ f =
          (⟨Step.terminal s0 t f false, false⟩, [], none) := by
        simp [Pipeline.pipeTerminal, VoidPipeline.create]
      simp only [buildChain, hps, hb0, List.nil_append]
    · have hps : Pipeline.pipeTerminal ⟨t, s1, true⟩ f =
          (⟨Step.terminal s1 t f true, true⟩, effs, none) := by
        simp [Pipeline.pipeTerminal, VoidPipeline.create, hexec1]
      simp only [buildChain, hps, hb1]
    · simpa [Handle.step, List.append_assoc] using hqexec

/-! Concrete step functions for the numbered scenarios of the spec.  Each
models the corresponding C++ lambda; `fnSize` models the `SizeWrapper`
adapter `pipeline_size` applied to a string. -/

def fnAdd10 : Val → Except Unit Val := fun v =>
  match v with
  | .vint n => .ok (.vint (n + 10))
  | _ => .error ()

def fnSquare : Val → Except Unit Val := fun v =>
  match v with
  | .vint n => .ok (.vint (n * n))
  | _ => .error ()

def fnSize : Val → Except Unit Val := fun v =>
  match v with
  | .vstr s => .ok (.vnat s.length)
  | _ => .error ()

def fnTriple : Val → Except Unit Val := fun v =>
  match v with
  | .vnat n => .ok (.vnat (n * 3))
  | _ => .error ()

def fnFirstEffect : Val → Except Unit (List String) := fun v =>
  match v with
  | .vint n => .ok (["First:" ++ toString n])
  | _ => .error ()

def actSecond : Unit → Except Unit (List String) := fun _ => .ok (["Second"])

/-- Scenario 3 chain: seed `42`, terminal recording `"First:"+x`, then a
sequential step recording `"Second"`, built deferred. -/
def scenario3 : Handle :=
  (buildFrom (.vint 42) false (.terminal fnFirstEffect (.seq actSecond .nil))).1

/-- The state of the scenario 3 chain after its first execution. -/
def scenario3done : Step := (scenario3.step.execute).1

/-- Claim C1: after a completed (error-free) execution of a chain, any later
call of `execute()` is a no-op: the step graph is returned unchanged (so no
transform step recomputes or overwrites its result and no step's ran flag
moves), no terminal or sequential side effect is re-emitted (empty trace),
and no error is raised — each step's work happens exactly once. -/
theorem claim_C1_second_execute_noop {s s' : Step} {tr : List String}
    (h : s.execute = (s', tr, none)) : s'.execute = (s', [], none) :=
  exec_done h

/-- Witness for C1 on scenario 3: the first execution emits exactly
`"First:42"` then `"Second"`, and executing the same chain again returns it
unchanged and appends nothing. -/
theorem claim_C1_witness :
    scenario3.step.execute = (scenario3done, ["First:42", "Second"], none) ∧
    scenario3done.execute = (scenario3done, [], none) :=
  ⟨rfl, claim_C1_second_execute_noop
    (rfl : scenario3.step.execute = (scenario3done, ["First:42", "Second"], none))⟩

/-- A sequential step with an observable effect that has not run yet. -/
def c2prev : Step :=
  .sequential (.initial .tint (.vint 0) false) (fun _ => .ok (["X"])) false

/-- A sequential step whose ran flag is already set, owning `c2prev`. -/
def c2tip : Step := .sequential c2prev (fun _ => .ok (["Y"])) true

/-- Counterexample to claim C2 as stated: `c2tip` is a non-seed step whose
ran flag is set, and invoking its `execute()` does not request execution of
its owned predecessor — the call returns the whole graph unchanged
(predecessor flag still unset, nothing emitted), whereas requesting the
predecessor's execution would set its flag.  In the C++ code the
`previous->execute()` call sits inside `if (!executed)`, so it is skipped
once the flag is set. -/
theorem claim_C2_counterexample :
    c2tip.execute = (c2tip, [], none) ∧
    c2tip.ran = true ∧
    c2tip.prevOf = some c2prev ∧
    c2prev.ran = false ∧
    (c2prev.execute).1.ran = true ∧
    ¬ (c2tip.execute).1.prevOf = some ((c2prev.execute).1) := by
  refine ⟨rfl, rfl, rfl, rfl, rfl, ?_⟩
  intro h
  rw [show (c2tip.execute).1.prevOf = some c2prev from rfl] at h
  have h2 : c2prev = (c2prev.execute).1 := Option.some.inj h
  have h3 := congrArg Step.ran h2
  have h4 : (false : Bool) = true := h3
  exact Bool.noConfusion h4

/-- Claim C2 amended: for every non-seed step, `execute()` checks the ran
flag first; when the flag is already set the whole call is a no-op and the
predecessor's `execute()` is not requested.  When the flag is unset, the
call first requests execution of the owned predecessor (so completion is in
strict root-to-tip order), then performs this step's own work and, on
success, sets its ran flag — for a transform, a terminal and a sequential
step alike — and a successful transform step also stores its result. -/
theorem claim_C2_amended_flag_then_predecessor :
    (∀ prev t u f res, (Step.transform prev t u f true res).execute =
        (.transform prev t u f true res, [], none)) ∧
    (∀ prev t f, (Step.terminal prev t f true).execute =
        (.terminal prev t f true, [], none)) ∧
    (∀ prev act, (Step.sequential prev act true).execute =
        (.sequential prev act true, [], none)) ∧
    (∀ prev t u f res, ((Step.transform prev t u f false res).execute).1.prevOf =
        some ((prev.execute).1)) ∧
    (∀ prev t f, ((Step.terminal prev t f false).execute).1.prevOf =
        some ((prev.execute).1)) ∧
    (∀ prev act, ((Step.sequential prev act false).execute).1.prevOf =
        some ((prev.execute).1)) ∧
    (∀ prev t u f res s' tr, (Step.transform prev t u f false res).execute =
        (s', tr, none) → s'.ran = true ∧ ∃ w, s'.resOf = some w) ∧
    (∀ (prev : Step) (t : Ty) (f : Val → Except Unit (List String)) s' tr,
      (Step.terminal prev t f false).execute = (s', tr, none) → s'.ran = true) ∧
    (∀ (prev : Step) (act : Unit → Except Unit (List String)) s' tr,
      (Step.sequential prev act false).execute = (s', tr, none) → s'.ran = true) := by
  refine ⟨fun prev t u f res => exec_transform_ran .., fun prev t f => exec_terminal_ran ..,
    fun prev act => exec_sequential_ran .., ?_, ?_, ?_, ?_,
    fun prev t f s' tr h => exec_ran h, fun prev act s' tr h => exec_ran h⟩
  · intro prev t u f res
    rcases hp : prev.execute with ⟨p', tr, e⟩
    cases e with
    | some e0 => rw [exec_transform_prevErr t u f res hp]; rfl
    | none =>
      rcases hr : recoverInput p' t with e0 | w
      · rw [exec_transform_recoverErr u f res hp hr]; rfl
      · rcases hf : f w with u' | out
        · cases u'; rw [exec_transform_funcErr u res hp hr hf]; rfl
        · rw [exec_transform_ok u res hp hr hf]; rfl
  · intro prev t f
    rcases hp : prev.execute with ⟨p', tr, e⟩
    cases e with
    | some e0 => rw [exec_terminal_prevErr t f hp]; rfl
    | none =>
      rcases hr : recoverInput p' t with e0 | w
      · rw [exec_terminal_recoverErr f hp hr]; rfl
      · rcases hf : f w with u' | effs
        · cases u'; rw [exec_terminal_funcErr hp hr hf]; rfl
        · rw [exec_terminal_ok hp hr hf]; rfl
  · intro prev act
    rcases hp : prev.execute with ⟨p', tr, e⟩
    cases e with
    | some e0 => rw [exec_sequential_prevErr act hp]; rfl
    | none =>
      rcases ha : act () with u' | effs
      · cases u'; rw [exec_sequential_actErr hp ha]; rfl
      · rw [exec_sequential_ok hp ha]; rfl
  · intro prev t u f res s' tr h
    rcases hp : prev.execute with ⟨p', tr', e⟩
    cases e with
    | some e0 => rw [exec_transform_prevErr t u f res hp] at h; simp at h
    | none =>
      rcases hr : recoverInput p' t with e0 | w
      · rw [exec_transform_recoverErr u f res hp hr] at h; simp at h
      · rcases hf : f w with u' | out
        · cases u'; rw [exec_transform_funcErr u res hp hr hf] at h; simp at h
        · rw [exec_transform_ok u res hp hr hf] at h
          obtain ⟨rfl, -, -⟩ := Prod.mk.injEq .. ▸ h
          exact ⟨rfl, out, rfl⟩

/-- Witness for the amended C2: on a fresh transform step over a seed, the
no-op equation for a set flag holds, a successful run sets the flag and
stores a result, and a successful sequential run sets its flag too. -/
theorem claim_C2_amended_witness :
    (Step.transform (.initial .tint (.vint 1) false) .tint .tint Except.ok true none).execute =
      (.transform (.initial .tint (.vint 1) false) .tint .tint Except.ok true none, [], none) ∧
    ((Step.transform (.initial .tint (.vint 1) false) .tint .tint Except.ok false none).execute).1.ran = true ∧
    (∃ w, ((Step.transform (.initial .tint (.vint 1) false) .tint .tint Except.ok false none).execute).1.resOf = some w) ∧
    ((Step.sequential (.initial .tint (.vint 1) false) actSecond false).execute).1.ran = true := by
  refine ⟨claim_C2_amended_flag_then_predecessor.1 (.initial .tint (.vint 1) false) .tint .tint Except.ok none, ?_, ?_, ?_⟩
  · exact (claim_C2_amended_flag_then_predecessor.2.2.2.2.2.2.1
      (.initial .tint (.vint 1) false) .tint .tint Except.ok none
      ((Step.transform (.initial .tint (.vint 1) false) .tint .tint Except.ok false none).execute).1
      ((Step.transform (.initial .tint (.vint 1) false) .tint .tint Except.ok false none).execute).2.1
      rfl).1
  · exact (claim_C2_amended_flag_then_predecessor.2.2.2.2.2.2.1
      (.initial .tint (.vint 1) false) .tint .tint Except.ok none
      ((Step.transform (.initial .tint (.vint 1) false) .tint .tint Except.ok false none).execute).1
      ((Step.transform (.initial .tint (.vint 1) false) .tint .tint Except.ok false none).execute).2.1
      rfl).2
  · exact claim_C2_amended_flag_then_predecessor.2.2.2.2.2.2.2.2
      (.initial .tint (.vint 1) false) actSecond
      ((Step.sequential (.initial .tint (.vint 1) false) actSecond false).execute).1
      ((Step.sequential (.initial .tint (.vint 1) false) actSecond false).execute).2.1
      rfl

/-- Claim C3: a transform step's result slot starts unpopulated and
`getResult` then raises the "Result not set" error; after an execution of
the step completes, `getResult` returns precisely the stored value, and in
general the value is readable exactly when the has-value flag is set. -/
theorem claim_C3_result_gating :
    (∀ prev t u f ex, (Step.transform prev t u f ex none).getResult =
        .error .resultNotSet) ∧
    (∀ prev t u f s' tr, (Step.transform prev t u f false none).execute =
        (s', tr, none) → ∃ w, s'.resOf = some w ∧ s'.getResult = .ok w) ∧
    (∀ s : Step, ∀ w, s.getResult = .ok w ↔ s.resOf = some w) := by
  refine ⟨fun prev t u f ex => rfl, ?_, ?_⟩
  · intro prev t u f s' tr h
    rcases hp : prev.execute with ⟨p', tr', e⟩
    cases e with
    | some e0 => rw [exec_transform_prevErr t u f none hp] at h; simp at h
    | none =>
      rcases hr : recoverInput p' t with e0 | w
      · rw [exec_transform_recoverErr u f none hp hr] at h; simp at h
      · rcases hf : f w with u' | out
        · cases u'; rw [exec_transform_funcErr u none hp hr hf] at h; simp at h
        · rw [exec_transform_ok u none hp hr hf] at h
          obtain ⟨rfl, -, -⟩ := Prod.mk.injEq .. ▸ h
          exact ⟨out, rfl, rfl⟩
  · intro s w
    unfold Step.getResult
    rcases s.resOf with _ | v <;> simp

/-- Witness for C3: before execution the fresh transform step over seed `5`
reports "Result not set"; one successful execution stores and exposes `5`. -/
theorem claim_C3_witness :
    (Step.transform (.initial .tint (.vint 5) false) .tint .tint Except.ok false none).getResult =
      .error .resultNotSet ∧
    ∃ w, ((Step.transform (.initial .tint (.vint 5) false) .tint .tint Except.ok false none).execute).1.resOf = some w ∧
      ((Step.transform (.initial .tint (.vint 5) false) .tint .tint Except.ok false none).execute).1.getResult = .ok w := by
  refine ⟨claim_C3_result_gating.1 (.initial .tint (.vint 5) false) .tint .tint Except.ok false, ?_⟩
  exact claim_C3_result_gating.2.1 (.initial .tint (.vint 5) false) .tint .tint Except.ok
    ((Step.transform (.initial .tint (.vint 5) false) .tint .tint Except.ok false none).execute).1
    ((Step.transform (.initial .tint (.vint 5) false) .tint .tint Except.ok false none).execute).2.1
    rfl

/-- Claim C4: a chain assembled exclusively through the public composition
surface (seed plus composition requests) never produces the type-recovery
error "Cannot get value from previous step": neither while assembling (which
covers the immediate executions) nor when executing the assembled chain. -/
theorem claim_C4_composition_never_type_recovery
    (v : Val) (imm : Bool) (ops : ChainOps) :
    (buildFrom v imm ops).2.2 ≠ some .typeRecovery ∧
    ((buildFrom v imm ops).1.execute).2.2 ≠ some .typeRecovery := by
  obtain ⟨hg, he⟩ := buildFrom_good v imm ops
  refine ⟨he, ?_⟩
  rcases hh : (buildFrom v imm ops).1 with p | p
  · rw [hh] at hg
    rcases hx : p.step.execute with ⟨s', tr, e⟩
    have := good_exec_no_tr (by simpa [HandleGood] using hg) hx
    simpa [Handle.execute, Handle.step, hx] using this
  · rw [hh] at hg
    rcases hx : p.step.execute with ⟨s', tr, e⟩
    have := goodV_exec_no_tr (by simpa [HandleGood] using hg) hx
    simpa [Handle.execute, Handle.step, hx] using this

/-- Witness for C4 on the scenario 1 shape: neither assembling the chain
seed `5` → `x+10` → `x*x` nor executing it yields the type-recovery error. -/
theorem claim_C4_witness :
    (buildFrom (.vint 5) false
        (.transform .tint fnAdd10 (.transform .tint fnSquare .nil))).2.2 ≠
      some .typeRecovery ∧
    ((buildFrom (.vint 5) false
        (.transform .tint fnAdd10 (.transform .tint fnSquare .nil))).1.execute).2.2 ≠
      some .typeRecovery :=
  claim_C4_composition_never_type_recovery (.vint 5) false
    (.transform .tint fnAdd10 (.transform .tint fnSquare .nil))

/-- Claim C5: for throw-free step functions, building a chain with
`immediate = true` and building the same chain with `immediate = false` and
then executing it once are equivalent: both succeed, the deferred build
itself emits nothing, and the single deferred execution reaches exactly the
step graph the immediate build reached (so every stored result value is
identical) while emitting exactly the effects the immediate build emitted,
in the same order. -/
theorem claim_C5_immediate_deferred_equivalence
    (v : Val) (ops : ChainOps) (hops : TotalOps ops) :
    ∃ h0 h1 tr1,
      buildFrom v false ops = (h0, [], none) ∧
      buildFrom v true ops = (h1, tr1, none) ∧
      h0.step.execute = (h1.step, tr1, none) := by
  have hsim : (Step.initial v.ty v false).execute =
      (.initial v.ty v true, [], none) := exec_initial ..
  have hgood : Good (Step.initial v.ty v true) v.ty := .initial ..
  obtain ⟨h0, h1, tr1, hb0, hb1, hexec⟩ :=
    buildChain_sim ops hops v.ty (.initial v.ty v false) (.initial v.ty v true)
      [] hgood hsim
  refine ⟨h0, h1, tr1, ?_, ?_, by simpa using hexec⟩
  · have hm : make_pipeline v false =
        (⟨v.ty, .initial v.ty v false, false⟩, [], none) := rfl
    simp only [buildFrom, hm, hb0, List.nil_append]
  · have hm : make_pipeline v true =
        (⟨v.ty, .initial v.ty v true, true⟩, [], none) := rfl
    simp only [buildFrom, hm, hb1, List.nil_append]

/-- Witness for C5: seed `5` with one identity transform. -/
theorem claim_C5_witness :
    ∃ h0 h1 tr1,
      buildFrom (.vint 5) false (.transform .tint Except.ok .nil) = (h0, [], none) ∧
      buildFrom (.vint 5) true (.transform .tint Except.ok .nil) = (h1, tr1, none) ∧
      h0.step.execute = (h1.step, tr1, none) :=
  claim_C5_immediate_deferred_equivalence (.vint 5) (.transform .tint Except.ok .nil)
    (.transform (fun v => ⟨v, rfl⟩) .nil)

/-- Scenario 2 chain, built step by step with `immediate = true`: seed
`"Hello"`, then the size adapter, then `x → x*3`; no separate execute call
is ever made. -/
def scenario2 : Pipeline × List String × Option Err :=
  ((make_pipeline (.vstr "Hello") true).1.pipeTransform .tnat fnSize).1.pipeTransform
    .tnat fnTriple

/-- Claim C6: when the current handle's immediate flag is set, every
composition executes the newly built step graph synchronously before
returning the new handle and propagates the flag to it; consequently in
scenario 2 (seed `"Hello"` immediate, size adapter, `x → x*3`) the result
`15` is available through `getResult` right after the composition that
appended the step, with no separate execute call. -/
theorem claim_C6_immediate_composition_executes :
    (∀ (p : Pipeline) (u : Ty) (f : Val → Except Unit Val), p.immediate = true →
      p.pipeTransform u f =
        (⟨u, ((Step.transform p.step p.ty u f false none).execute).1, true⟩,
         ((Step.transform p.step p.ty u f false none).execute).2)) ∧
    (∀ (p : Pipeline) (f : Val → Except Unit (List String)), p.immediate = true →
      p.pipeTerminal f =
        (⟨((Step.terminal p.step p.ty f false).execute).1, true⟩,
         ((Step.terminal p.step p.ty f false).execute).2)) ∧
    (∀ (p : VoidPipeline) (act : Unit → Except Unit (List String)), p.immediate = true →
      p.pipeSequential act =
        (⟨((Step.sequential p.step act false).execute).1, true⟩,
         ((Step.sequential p.step act false).execute).2)) ∧
    (scenario2.1.step.getResult = .ok (.vnat 15) ∧
     scenario2.1.immediate = true ∧ scenario2.2 = ([], none)) := by
  refine ⟨?_, ?_, ?_, rfl, rfl, rfl⟩
  · intro p u f himm
    rcases hx : (Step.transform p.step p.ty u f false none).execute with ⟨s', tr, e⟩
    simp [Pipeline.pipeTransform, Pipeline.create, himm, hx]
  · intro p f himm
    rcases hx : (Step.terminal p.step p.ty f false).execute with ⟨s', tr, e⟩
    simp [Pipeline.pipeTerminal, VoidPipeline.create, himm, hx]
  · intro p act himm
    rcases hx : (Step.sequential p.step act false).execute with ⟨s', tr, e⟩
    simp [VoidPipeline.pipeSequential, VoidPipeline.create, himm, hx]

/-- Witness for C6: the immediate handle of scenario 2 after the size
adapter satisfies the propagation equation of the theorem. -/
theorem claim_C6_witness :
    ((make_pipeline (.vstr "Hello") true).1.pipeTransform .tnat fnSize).1.pipeTransform
        .tnat fnTriple =
      (⟨.tnat,
        ((Step.transform ((make_pipeline (.vstr "Hello") true).1.pipeTransform .tnat fnSize).1.step
            .tnat .tnat fnTriple false none).execute).1, true⟩,
       ((Step.transform ((make_pipeline (.vstr "Hello") true).1.pipeTransform .tnat fnSize).1.step
            .tnat .tnat fnTriple false none).execute).2) :=
  claim_C6_immediate_composition_executes.1
    ((make_pipeline (.vstr "Hello") true).1.pipeTransform .tnat fnSize).1
    .tnat fnTriple rfl

/-- Claim C7: an error raised inside a step's own function, or by the
type-recovery protocol, surfaces as the error of the enclosing `execute()`
call (and a predecessor's error is forwarded unchanged by every enclosing
step); the failing invocation performs none of the failing step's work — its
ran flag and result slot are untouched and it emits nothing of its own, with
no internal retry — while every step that already completed keeps its
effects, results and ran flag (an already-ran step is not even re-entered,
and the trace the predecessors emitted before the failure is kept).  The
conjuncts cover, for transform, terminal and sequential steps alike, both
the origination of an error (the step's own function or action throwing, or
the type-recovery protocol failing in the two step kinds that run it) and
the unchanged forwarding of an error raised below the step. -/
theorem claim_C7_error_propagation :
    (∀ (prev p' : Step) (tr : List String) (e : Err) (t u : Ty)
        (f : Val → Except Unit Val) (res : Option Val),
      prev.execute = (p', tr, some e) →
      (Step.transform prev t u f false res).execute =
        (.transform p' t u f false res, tr, some e)) ∧
    (∀ (prev p' : Step) (tr : List String) (e : Err) (t : Ty)
        (f : Val → Except Unit (List String)),
      prev.execute = (p', tr, some e) →
      (Step.terminal prev t f false).execute = (.terminal p' t f false, tr, some e)) ∧
    (∀ (prev p' : Step) (tr : List String) (w : Val) (t u : Ty)
        (f : Val → Except Unit Val) (res : Option Val),
      prev.execute = (p', tr, none) → recoverInput p' t = .ok w → f w = .error () →
      (Step.transform prev t u f false res).execute =
        (.transform p' t u f false res, tr, some .userError)) ∧
    (∀ (prev p' : Step) (tr : List String) (w : Val) (t : Ty)
        (f : Val → Except Unit (List String)),
      prev.execute = (p', tr, none) → recoverInput p' t = .ok w → f w = .error () →
      (Step.terminal prev t f false).execute =
        (.terminal p' t f false, tr, some .userError)) ∧
    (∀ (prev p' : Step) (tr : List String) (e : Err) (t u : Ty)
        (f : Val → Except Unit Val) (res : Option Val),
      prev.execute = (p', tr, none) → recoverInput p' t = .error e →
      (Step.transform prev t u f false res).execute =
        (.transform p' t u f false res, tr, some e)) ∧
    (∀ (prev p' : Step) (tr : List String) (e : Err) (t : Ty)
        (f : Val → Except Unit (List String)),
      prev.execute = (p', tr, none) → recoverInput p' t = .error e →
      (Step.terminal prev t f false).execute =
        (.terminal p' t f false, tr, some e)) ∧
    (∀ (prev p' : Step) (tr : List String) (e : Err)
        (act : Unit → Except Unit (List String)),
      prev.execute = (p', tr, some e) →
      (Step.sequential prev act false).execute =
        (.sequential p' act false, tr, some e)) ∧
    (∀ (prev p' : Step) (tr : List String)
        (act : Unit → Except Unit (List String)),
      prev.execute = (p', tr, none) → act () = .error () →
      (Step.sequential prev act false).execute =
        (.sequential p' act false, tr, some .userError)) ∧
    (∀ s : Step, s.ran = true → s.execute = (s, [], none)) := by
  exact ⟨fun prev p' tr e t u f res hp => exec_transform_prevErr t u f res hp,
    fun prev p' tr e t f hp => exec_terminal_prevErr t f hp,
    fun prev p' tr w t u f res hp hr hf => exec_transform_funcErr u res hp hr hf,
    fun prev p' tr w t f hp hr hf => exec_terminal_funcErr hp hr hf,
    fun prev p' tr e t u f res hp hr => exec_transform_recoverErr u f res hp hr,
    fun prev p' tr e t f hp hr => exec_terminal_recoverErr f hp hr,
    fun prev p' tr e act hp => exec_sequential_prevErr act hp,
    fun prev p' tr act hp ha => exec_sequential_actErr hp ha,
    fun s hs => ran_noop hs⟩

/-- Witness for C7: a throwing transform over the seed `1` aborts with the
user error while the executed seed is kept and nothing is emitted; and a
sequential tip over a throwing terminal step forwards the terminal's user
error unchanged without running its own action. -/
theorem claim_C7_witness :
    (Step.transform (.initial .tint (.vint 1) false) .tint .tint
        (fun _ => .error ()) false none).execute =
      (.transform (.initial .tint (.vint 1) true) .tint .tint
        (fun _ => .error ()) false none, [], some .userError) ∧
    (Step.sequential (.terminal (.initial .tint (.vint 1) false) .tint
        (fun _ => .error ()) false) actSecond false).execute =
      (.sequential (.terminal (.initial .tint (.vint 1) true) .tint
        (fun _ => .error ()) false) actSecond false, [], some .userError) :=
  ⟨claim_C7_error_propagation.2.2.1 (.initial .tint (.vint 1) false)
      (.initial .tint (.vint 1) true) [] (.vint 1) .tint .tint
      (fun _ => .error ()) none rfl rfl rfl,
   claim_C7_error_propagation.2.2.2.2.2.2.1
      (.terminal (.initial .tint (.vint 1) false) .tint (fun _ => .error ()) false)
      (.terminal (.initial .tint (.vint 1) true) .tint (fun _ => .error ()) false)
      [] .userError actSecond rfl⟩

/-- Scenario 1 chain: seed `5`, then `x → x+10`, then `x → x*x`, deferred. -/
def scenario1 : Handle × List String × Option Err :=
  buildFrom (.vint 5) false (.transform .tint fnAdd10 (.transform .tint fnSquare .nil))

/-- Claim C8: building scenario 1 deferred emits nothing and does not fail;
executing the chain succeeds, and reading the tip's result afterwards yields
`225`. -/
theorem claim_C8_scenario1_yields_225 :
    scenario1.2 = ([], none) ∧
    (scenario1.1.execute).2 = ([], none) ∧
    ((scenario1.1.execute).1).getResult = .ok (.vint 225) :=
  ⟨rfl, rfl, rfl⟩

/-- Claim C10: when a step's own function throws, the step's ran flag stays
unset and (for a transform step) its result slot stays empty, so a later
`execute()` of the same chain passes through the already-completed
predecessors as no-ops and attempts the failing step's work again (the
function is re-applied to the recovered input, rather than the step being
skipped as already-run). -/
theorem claim_C10_failed_step_retried :
    (∀ (prev p' : Step) (tr : List String) (w : Val) (t u : Ty)
        (f : Val → Except Unit Val),
      prev.execute = (p', tr, none) → recoverInput p' t = .ok w → f w = .error () →
      (Step.transform prev t u f false none).execute =
        (.transform p' t u f false none, tr, some .userError) ∧
      (Step.transform p' t u f false none).execute =
        (.transform p' t u f false none, [], some .userError)) ∧
    (∀ (prev p' : Step) (tr : List String) (w : Val) (t : Ty)
        (f : Val → Except Unit (List String)),
      prev.execute = (p', tr, none) → recoverInput p' t = .ok w → f w = .error () →
      (Step.terminal prev t f false).execute =
        (.terminal p' t f false, tr, some .userError) ∧
      (Step.terminal p' t f false).execute =
        (.terminal p' t f false, [], some .userError)) := by
  constructor
  · intro prev p' tr w t u f hp hr hf
    exact ⟨exec_transform_funcErr u none hp hr hf,
      exec_transform_funcErr u none (exec_done hp) hr hf⟩
  · intro prev p' tr w t f hp hr hf
    exact ⟨exec_terminal_funcErr hp hr hf,
      exec_terminal_funcErr (exec_done hp) hr hf⟩

/-- Witness for C10: a throwing transform over the seed `1` fails, leaves
its flag unset and slot empty, and fails again identically on a retry after
the seed's no-op pass. -/
theorem claim_C10_witness :
    (Step.transform (.initial .tint (.vint 1) false) .tint .tint
        (fun _ => .error ()) false none).execute =
      (.transform (.initial .tint (.vint 1) true) .tint .tint
        (fun _ => .error ()) false none, [], some .userError) ∧
    (Step.transform (.initial .tint (.vint 1) true) .tint .tint
        (fun _ => .error ()) false none).execute =
      (.transform (.initial .tint (.vint 1) true) .tint .tint
        (fun _ => .error ()) false none, [], some .userError) :=
  claim_C10_failed_step_retried.1 (.initial .tint (.vint 1) false)
    (.initial .tint (.vint 1) true) [] (.vint 1) .tint .tint
    (fun _ => .error ()) rfl rfl rfl
